import Mathlib

/-!
Verification development for the Dynamic Evacuation System repository.

Shallow embedding of the hazard-aware routing core:
- src/software/path_planning/path_planning.c (graph store, risk update,
  A* planner, direction translator) in namespace PathPlanning;
- src/software/main.c (replanning policy over the mall map) in namespace
  MallMain.

Modelling conventions: C float/double values are embedded as exact
rationals; the fixed-size arrays with explicit counts become lists whose
length plays the role of the count, with the compile-time capacity
constants checked at insert time exactly as the C code does; C functions
that mutate the module-global graph become state-passing functions
returning the C status code together with the new state, and a failing
call returns the state it received.  The square root used by the
Euclidean heuristic is a parameter of the planner embedding: theorems
assume of it only facts that hold of the IEEE float sqrt at the relevant
arguments (sqrt of a perfect square is exact).
-/

set_option maxRecDepth 8000

namespace PathPlanning

/-- MAX_NODES from path_planning.h. -/
def MAX_NODES : Nat := 100

/-- MAX_EDGES from path_planning.h. -/
def MAX_EDGES : Nat := 200

/-- MAX_PATH_LENGTH from path_planning.h: MAP_WIDTH * MAP_HEIGHT = 20 * 20. -/
def MAX_PATH_LENGTH : Nat := 400

/-- FLT_MAX, the initial value of the g and f score arrays, embedded by its
exact rational value (2 - 2^(-23)) * 2^127 = (2^24 - 1) * 2^104, written as a
numeral so that it reduces in the kernel. -/
def FLT_MAX : ℚ := 340282346638528859811704183484516925440

/-- graph_node_t from path_planning.h. -/
structure graph_node_t where
  node_id : Int
  area_id : Int
  x : ℚ
  y : ℚ
  deriving DecidableEq

/-- graph_edge_t from path_planning.h. -/
structure graph_edge_t where
  edge_id : Int
  start_node : Int
  end_node : Int
  distance : ℚ
  risk_factor : ℚ
  deriving DecidableEq

/-- graph_t from path_planning.h; the num_nodes / num_edges counters are the
list lengths. -/
structure graph_t where
  nodes : List graph_node_t
  edges : List graph_edge_t
  deriving DecidableEq

/-- EnvironmentalData_t from data_fusion.h.  tvoc_ppb and eco2_ppm are
uint16_t in C, embedded as naturals. -/
structure EnvironmentalData_t where
  tvoc_ppb : Nat
  eco2_ppm : Nat
  mq2_voltage : ℚ
  mq2_concentration : ℚ
  deriving DecidableEq

/-- Node of a computed path.  The C path_t stores MapNode_t entries, of which
find_safe_path writes exactly the node_id, x, y and area_id fields; the
remaining MapNode_t fields are never produced by the planner and are omitted. -/
structure path_node_t where
  node_id : Int
  x : ℚ
  y : ℚ
  area_id : Int
  deriving DecidableEq

/-- path_t from path_planning.h; num_nodes is the list length.  The timestamp
field (wall-clock time of computation) is not modelled. -/
structure path_t where
  nodes : List path_node_t
  total_distance : ℚ
  total_risk : ℚ
  deriving DecidableEq

/-- path_planning_init (path_planning.c, lines 27-33): zeroes the graph. -/
def path_planning_init : graph_t := ⟨[], []⟩

/-- Duplicate-id scan loop of add_node (lines 92-97), also reused by add_edge
for its endpoint-existence scan (lines 134-142), which computes the same
answer as two independent scans. -/
def node_id_exists : List graph_node_t → Int → Bool
  | [], _ => false
  | n :: rest, nid => if n.node_id = nid then true else node_id_exists rest nid

/-- Duplicate-id scan loop of add_edge (lines 120-125). -/
def edge_id_exists : List graph_edge_t → Int → Bool
  | [], _ => false
  | e :: rest, eid => if e.edge_id = eid then true else edge_id_exists rest eid

/-- add_node (path_planning.c, lines 88-113). -/
def add_node (g : graph_t) (node_id area_id : Int) (x y : ℚ) : Int × graph_t :=
  if node_id_exists g.nodes node_id then (-1, g)
  else if MAX_NODES ≤ g.nodes.length then (-1, g)
  else (0, { g with nodes := g.nodes ++ [⟨node_id, area_id, x, y⟩] })

/-- add_edge (path_planning.c, lines 116-158).  The inserted edge gets
risk_factor 0 (line 154). -/
def add_edge (g : graph_t) (edge_id start_node end_node : Int) (distance : ℚ) :
    Int × graph_t :=
  if edge_id_exists g.edges edge_id then (-1, g)
  else if MAX_EDGES ≤ g.edges.length then (-1, g)
  else if node_id_exists g.nodes start_node = false ∨
          node_id_exists g.nodes end_node = false then (-1, g)
  else (0, { g with edges := g.edges ++ [⟨edge_id, start_node, end_node, distance, 0⟩] })

/-- The clamp of update_edge_risks (lines 208-209): two sequential ifs. -/
def clamp01 (r : ℚ) : ℚ :=
  if 1 < r then 1 else if r < 0 then 0 else r

/-- The per-edge risk computed by update_edge_risks (lines 201-205):
start_risk = (tvoc_ppb + eco2_ppm) / 2000, end_risk = start_risk, and the
edge gets the larger of the two. -/
def edge_new_risk (env : EnvironmentalData_t) : ℚ :=
  let start_risk : ℚ := ((env.tvoc_ppb : ℚ) + (env.eco2_ppm : ℚ)) / 2000
  let end_risk : ℚ := start_risk
  if end_risk < start_risk then start_risk else end_risk

/-- update_edge_risks (path_planning.c, lines 161-214).  The NULL-pointer
check is not modelled (the reading is passed by value); the loop over nodes
computing start_area_id / end_area_id (lines 174-181) is dead code whose
results are never used and is omitted. -/
def update_edge_risks (g : graph_t) (env : EnvironmentalData_t) : Int × graph_t :=
  (0, { g with edges := g.edges.map (fun e => { e with risk_factor := clamp01 (edge_new_risk env) }) })

/-- Placeholder node used to embed C array indexing; every access performed by
the planner is at a valid index, so the default is never observed. -/
def default_node : graph_node_t := ⟨0, 0, 0, 0⟩

/-- The Euclidean heuristic (path_planning.c, lines 217-222), parametrized by
the square-root function sqrtFn standing for the C sqrt. -/
def heuristic (sqrtFn : ℚ → ℚ) (nodes : List graph_node_t) (i j : Nat) : ℚ :=
  let a := nodes.getD i default_node
  let b := nodes.getD j default_node
  let dx := a.x - b.x
  let dy := a.y - b.y
  sqrtFn (dx * dx + dy * dy)

/-- Index-lookup loop of find_node_index_by_id (lines 225-232), with the
running index made explicit. -/
def find_node_index_from : List graph_node_t → Int → Nat → Int
  | [], _, _ => -1
  | n :: rest, nid, i =>
      if n.node_id = nid then (i : Int) else find_node_index_from rest nid (i + 1)

/-- find_node_index_by_id (path_planning.c, lines 225-232): index of the first
node with the given id, or -1. -/
def find_node_index_by_id (nodes : List graph_node_t) (node_id : Int) : Int :=
  find_node_index_from nodes node_id 0

/-- Area-id resolution loop of find_safe_path (lines 240-247).  The loop
assigns on every match and never breaks, so when several nodes carry the
same area id the last one in array order determines the result. -/
def resolve_area_node_ids (nodes : List graph_node_t) (start_area_id end_area_id : Int) :
    Int × Int :=
  nodes.foldl
    (fun acc n =>
      (if n.area_id = start_area_id then n.node_id else acc.1,
       if n.area_id = end_area_id then n.node_id else acc.2))
    (-1, -1)

/-- The per-node search arrays of find_safe_path (lines 262-266), embedded as
functions from the node index. -/
structure astar_state where
  g_score : Nat → ℚ
  f_score : Nat → ℚ
  prev_node_idx : Nat → Int
  open_set : Nat → Bool
  closed_set : Nat → Bool

/-- The minimum-f scan of the main loop (lines 283-290): lowest f among open
nodes, strict comparison, first minimum wins; (FLT_MAX, -1) when no open node
qualifies. -/
def find_min_open (st : astar_state) (num_nodes : Nat) : ℚ × Int :=
  (List.range num_nodes).foldl
    (fun acc i =>
      if st.open_set i = true ∧ st.f_score i < acc.1 then (st.f_score i, (i : Int)) else acc)
    (FLT_MAX, -1)

/-- The risk weight applied to an edge during relaxation (line 314):
1 + k * risk_factor with the risk-aversion constant k = 10. -/
def risk_weight (e : graph_edge_t) : ℚ := 1 + 10 * e.risk_factor

/-- The weighted traversal cost an edge contributes to the tentative g score
(line 315): distance * risk_weight. -/
def edge_cost (e : graph_edge_t) : ℚ := e.distance * risk_weight e

/-- The neighbor-relaxation loop of find_safe_path (lines 307-325): for every
edge leaving the current node (directed: start_node must match), compute the
tentative risk-weighted g score and update scores, parent pointer and open
set when the neighbor is unvisited or improved. -/
def relax_edges (sqrtFn : ℚ → ℚ) (nodes : List graph_node_t) (edges : List graph_edge_t)
    (v_idx current_idx : Nat) (st : astar_state) : astar_state :=
  edges.foldl
    (fun st e =>
      if e.start_node = (nodes.getD current_idx default_node).node_id then
        let neighbor_idx : Int := find_node_index_by_id nodes e.end_node
        if neighbor_idx ≠ -1 ∧ st.closed_set neighbor_idx.toNat = false then
          let n := neighbor_idx.toNat
          let tentative_g_score := st.g_score current_idx + edge_cost e
          if st.open_set n = false ∨ tentative_g_score < st.g_score n then
            { g_score := fun i => if i = n then tentative_g_score else st.g_score i
              f_score := fun i =>
                if i = n then tentative_g_score + heuristic sqrtFn nodes n v_idx
                else st.f_score i
              prev_node_idx := fun i => if i = n then (current_idx : Int) else st.prev_node_idx i
              open_set := fun i => if i = n then true else st.open_set i
              closed_set := st.closed_set }
          else st
        else st
      else st)
    st

/-- Removal of the current node from the open set and its insertion into the
closed set (lines 303-304). -/
def close_node (st : astar_state) (c : Nat) : astar_state :=
  { st with
    open_set := fun i => if i = c then false else st.open_set i
    closed_set := fun i => if i = c then true else st.closed_set i }

/-- The main A* loop of find_safe_path (lines 281-326), with explicit fuel.
Each iteration that recurses closes a previously unclosed node and closed
nodes are never reopened, so fuel num_nodes + 1 reproduces the C loop; on
fuel exhaustion (unreachable from find_safe_path) the search fails. -/
def astar_loop (sqrtFn : ℚ → ℚ) (nodes : List graph_node_t) (edges : List graph_edge_t)
    (v_idx : Nat) : Nat → astar_state → Option astar_state
  | 0, _ => none
  | fuel + 1, st =>
      let m := find_min_open st nodes.length
      if m.2 = -1 then none
      else if m.2 = (v_idx : Int) then some st
      else
        let c := m.2.toNat
        astar_loop sqrtFn nodes edges v_idx fuel
          (relax_edges sqrtFn nodes edges v_idx c (close_node st c))

/-- The trace-back loop of find_safe_path (lines 329-340): follow parent
pointers from the goal index, erroring when MAX_PATH_LENGTH entries would be
exceeded.  The accumulated index list is in goal-to-start order like the C
array; the explicit fuel MAX_PATH_LENGTH + 1 is enough for the length guard
to fire first, so the fuel-exhaustion branch is unreachable. -/
def trace_back (prev : Nat → Int) : Nat → Int → List Nat → Option (List Nat)
  | 0, _, _ => none
  | fuel + 1, current, acc =>
      if current = -1 then some acc
      else if MAX_PATH_LENGTH ≤ acc.length then none
      else trace_back prev fuel (prev current.toNat) (acc ++ [current.toNat])

/-- The segment-edge lookup of the reconstruction loop (lines 359-365): first
edge in array order from node id a to node id b (directed). -/
def find_segment_edge (edges : List graph_edge_t) (a b : Int) : Option graph_edge_t :=
  edges.find? (fun e => e.start_node == a && e.end_node == b)

/-- One step of the path-reconstruction loop (lines 348-367): append the node
at the given index and, when a previous node exists, add the raw distance and
risk factor of the first matching segment edge to the running totals. -/
def build_step (nodes : List graph_node_t) (edges : List graph_edge_t)
    (p : path_t) (idx : Nat) : path_t :=
  let n := nodes.getD idx default_node
  let pn : path_node_t := ⟨n.node_id, n.x, n.y, n.area_id⟩
  match p.nodes.getLast? with
  | none => { p with nodes := p.nodes ++ [pn] }
  | some last =>
      match find_segment_edge edges last.node_id pn.node_id with
      | some e =>
          { nodes := p.nodes ++ [pn]
            total_distance := p.total_distance + e.distance
            total_risk := p.total_risk + e.risk_factor }
      | none => { p with nodes := p.nodes ++ [pn] }

/-- The path-reconstruction loop of find_safe_path (lines 342-367), fed the
node indices in start-to-goal order. -/
def build_path (nodes : List graph_node_t) (edges : List graph_edge_t)
    (order : List Nat) : path_t :=
  order.foldl (build_step nodes edges) ⟨[], 0, 0⟩

/-- The initialization block of find_safe_path (lines 268-279): all scores at
FLT_MAX, no parents, empty closed set, and the start index opened with g
score 0 and f score given by the heuristic to the goal. -/
def initial_state (sqrtFn : ℚ → ℚ) (nodes : List graph_node_t) (u_idx v_idx : Nat) :
    astar_state :=
  { g_score := fun i => if i = u_idx then 0 else FLT_MAX
    f_score := fun i =>
      if i = u_idx then heuristic sqrtFn nodes u_idx v_idx else FLT_MAX
    prev_node_idx := fun _ => -1
    open_set := fun i => if i = u_idx then true else false
    closed_set := fun _ => false }

/-- The tail of find_safe_path after the search loop (lines 328-371): trace
the parent pointers back from the goal and reconstruct the path, propagating
the loop failure. -/
def astar_to_path (nodes : List graph_node_t) (edges : List graph_edge_t)
    (v_idx : Nat) : Option astar_state → Option path_t
  | none => none
  | some st =>
      match trace_back st.prev_node_idx (MAX_PATH_LENGTH + 1) (v_idx : Int) [] with
      | none => none
      | some order_rev => some (build_path nodes edges order_rev.reverse)

/-- find_safe_path (path_planning.c, lines 235-372), parametrized by the
square-root function used by the heuristic.  Returns none exactly where the C
function returns -1 (area not found, open set exhausted, path-length
overflow). -/
def find_safe_path (sqrtFn : ℚ → ℚ) (g : graph_t) (start_area_id end_area_id : Int) :
    Option path_t :=
  let r := resolve_area_node_ids g.nodes start_area_id end_area_id
  if r.1 = -1 ∨ r.2 = -1 then none
  else
    let u := find_node_index_by_id g.nodes r.1
    let v := find_node_index_by_id g.nodes r.2
    if u = -1 ∨ v = -1 then none
    else
      let u_idx := u.toNat
      let v_idx := v.toNat
      astar_to_path g.nodes g.edges v_idx
        (astar_loop sqrtFn g.nodes g.edges v_idx (g.nodes.length + 1)
          (initial_state sqrtFn g.nodes u_idx v_idx))

/-- get_direction_from_path (path_planning.c, lines 476-512).  The argument is
an optional path, none standing for the C NULL pointer; -1 is the invalid-path
return value, and 0/1/2/3 encode East/North/West/South as documented in the
source (lines 491-495). -/
def get_direction_from_path : Option path_t → Int
  | none => -1
  | some p =>
      if p.nodes.length < 2 then -1
      else
        let n0 := p.nodes.getD 0 ⟨0, 0, 0, 0⟩
        let n1 := p.nodes.getD 1 ⟨0, 0, 0, 0⟩
        let dx := n1.x - n0.x
        let dy := n1.y - n0.y
        if |dy| < |dx| then (if 0 < dx then 0 else 2)
        else (if 0 < dy then 3 else 1)

/-- Abstract model of one line of the map data file consumed by
load_map_data.  A constructor records how the line parses in the section in
which the loader consumes it: the NODES / EDGES section headers recognised by
the strncmp checks, a line matching the node format of sscanf (d d f f), a
line matching the edge format (d d d f), or any other line (skipped).  The C
reinterpretation of one numeric text line under the other format at a section
boundary is not modelled; claims are settled on unambiguous lines. -/
inductive MapLine where
  | nodes_header : MapLine
  | edges_header : MapLine
  | node_line (node_id area_id : Int) (x y : ℚ) : MapLine
  | edge_line (edge_id start_node end_node : Int) (distance : ℚ) : MapLine
  | other : MapLine
  deriving DecidableEq

/-- The edge-reading loop of load_map_data (lines 71-79): lines parsing as
edges are inserted, a failing insert aborts with -1 and the graph as built so
far, anything else is skipped; end of file yields 0. -/
def load_edges_loop : graph_t → List MapLine → Int × graph_t
  | g, [] => (0, g)
  | g, MapLine.edge_line eid s e d :: rest =>
      let r := add_edge g eid s e d
      if r.1 = 0 then load_edges_loop r.2 rest else (-1, r.2)
  | g, _ :: rest => load_edges_loop g rest

/-- The node-reading loop of load_map_data (lines 56-68): an EDGES header
hands over to the edge loop, node lines are inserted (a failing insert aborts
with -1 and the graph as built so far), anything else is skipped; end of file
without an EDGES header falls through to the edge loop on an empty remainder
and therefore yields 0. -/
def load_nodes_loop : graph_t → List MapLine → Int × graph_t
  | g, [] => (0, g)
  | g, MapLine.edges_header :: rest => load_edges_loop g rest
  | g, MapLine.node_line nid aid x y :: rest =>
      let r := add_node g nid aid x y
      if r.1 = 0 then load_nodes_loop r.2 rest else (-1, r.2)
  | g, _ :: rest => load_nodes_loop g rest

/-- load_map_data (path_planning.c, lines 36-85).  The file argument is none
when fopen fails (unreadable file), otherwise the list of its lines.  An
empty file or a first line other than the NODES header fails immediately
(lines 50-54). -/
def load_map_data (g : graph_t) (file : Option (List MapLine)) : Int × graph_t :=
  match file with
  | none => (-1, g)
  | some [] => (-1, g)
  | some (first :: rest) =>
      if first = MapLine.nodes_header then load_nodes_loop g rest else (-1, g)

/-- The test fixture of path_planning.c (lines 414-425): nodes 1-4 at the
corners of a 10 x 10 square with area ids 101-104, four perimeter edges of
distance 10 and a diagonal edge from node 1 to node 3 of distance 14.14. -/
def square_graph : graph_t :=
  let g0 := path_planning_init
  let g1 := (add_node g0 1 101 0 0).2
  let g2 := (add_node g1 2 102 10 0).2
  let g3 := (add_node g2 3 103 10 10).2
  let g4 := (add_node g3 4 104 0 10).2
  let g5 := (add_edge g4 1 1 2 10).2
  let g6 := (add_edge g5 2 2 3 10).2
  let g7 := (add_edge g6 3 3 4 10).2
  let g8 := (add_edge g7 4 4 1 10).2
  (add_edge g8 5 1 3 (1414 / 100)).2

/-- The square fixture after the scenario step of the spec: only the diagonal
edge (edge id 5) has its risk factor raised to 1.0, every other risk factor
stays 0. -/
def square_graph_risky : graph_t :=
  { square_graph with
    edges := square_graph.edges.map
      (fun e => if e.edge_id = 5 then { e with risk_factor := 1 } else e) }

/-- Sample square-root function agreeing with the IEEE float sqrt on the
squared distances that arise between nodes of the square fixture (0 and 100
are squares, so float sqrt is exact there; the value at 200 only needs to
stay below FLT_MAX). -/
def sample_sqrt : ℚ → ℚ := fun q => if q = 0 then 0 else if q = 100 then 10 else 14

/-- Specification-side helper: the last node in array order carrying the given
area id, used to characterize the area resolution of find_safe_path. -/
def last_node_with_area (nodes : List graph_node_t) (area_id : Int) :
    Option graph_node_t :=
  (nodes.filter (fun n => n.area_id == area_id)).getLast?

/-- Specification-side helper: the sum, over consecutive pairs of a node-id
sequence, of a metric of the first edge joining the pair in edge-array order
(0 for a pair no edge joins), used to state what the reported path totals
are. -/
def route_sum (f : graph_edge_t → ℚ) (edges : List graph_edge_t) : List Int → ℚ
  | [] => 0
  | [_] => 0
  | a :: b :: rest =>
      (match find_segment_edge edges a b with
       | some e => f e
       | none => 0) + route_sum f edges (b :: rest)

/-- Fixture for the area-resolution claim: two nodes share area id 101, a
third carries 103.  The node inserted first with area 101 is node 1. -/
def dup_area_graph : graph_t :=
  let g0 := path_planning_init
  let g1 := (add_node g0 1 101 0 0).2
  let g2 := (add_node g1 2 101 5 5).2
  (add_node g2 3 103 9 9).2

/-- Map file whose second node line reuses node id 1: the insert of the
duplicate fails mid-load. -/
def dup_node_file : List MapLine :=
  [MapLine.nodes_header, MapLine.node_line 1 101 0 0, MapLine.node_line 1 102 5 5]

/-- Map file with a NODES section but no EDGES header. -/
def headerless_edges_file : List MapLine :=
  [MapLine.nodes_header, MapLine.node_line 1 101 0 0]

/-- The environmental reading of the path_planning.c test fixture
(lines 430-435). -/
def dummy_env_data : EnvironmentalData_t := ⟨500, 800, 3 / 2, 100⟩

/-- The path node written from a graph node during reconstruction
(lines 350-353). -/
def path_node_of (nodes : List graph_node_t) (idx : Nat) : path_node_t :=
  let n := nodes.getD idx default_node
  ⟨n.node_id, n.x, n.y, n.area_id⟩

/-- A small well-formed map file: two nodes and one edge. -/
def simple_map_file : List MapLine :=
  [MapLine.nodes_header, MapLine.node_line 1 101 0 0, MapLine.node_line 2 102 5 5,
   MapLine.edges_header, MapLine.edge_line 1 1 2 10]

/-- A 2-node path pointing east, for exercising the direction translator. -/
def east_path : path_t := ⟨[⟨1, 0, 0, 101⟩, ⟨2, 10, 0, 102⟩], 10, 0⟩

end PathPlanning

namespace MallMain

/-- Area from main.c. -/
structure Area where
  id : Int
  name : String
  is_exit : Int
  hazard_level : ℚ
  deriving DecidableEq

/-- Connection from main.c.  The C field named from is a Lean keyword and is
embedded as from_area / to_area. -/
structure Connection where
  from_area : Int
  to_area : Int
  distance : ℚ
  blocked : Int
  deriving DecidableEq

/-- EvacuationPath from main.c; length is the list length. -/
structure EvacuationPath where
  area_ids : List Int
  total_distance : ℚ
  deriving DecidableEq

/-- ShoppingMallMap from main.c; area_count / connection_count are the list
lengths. -/
structure ShoppingMallMap where
  areas : List Area
  connections : List Connection
  deriving DecidableEq

/-- find_nearest_exit (main.c, lines 106-114): scans the area array in order
and returns the id of the first area marked as an exit, ignoring the current
position and all distances; -1 when no exit exists. -/
def find_nearest_exit (m : ShoppingMallMap) (current_area : Int) : Int :=
  match m.areas.find? (fun a => a.is_exit != 0) with
  | some a => a.id
  | none => -1

/-- The connection lookup inside find_evacuation_path (lines 127-134): first
connection joining a and b in either direction. -/
def connection_between (conns : List Connection) (a b : Int) : Option Connection :=
  conns.find? (fun c =>
    (c.from_area == a && c.to_area == b) || (c.from_area == b && c.to_area == a))

/-- find_evacuation_path (main.c, lines 117-139): always the two-entry path
from start to end, whose total distance is the distance of the first
connection joining them (0 when none exists). -/
def find_evacuation_path (m : ShoppingMallMap) (s e : Int) : EvacuationPath :=
  let d : ℚ :=
    match connection_between m.connections s e with
    | some c => c.distance
    | none => 0
  ⟨[s, e], d⟩

/-- The hazard scan of update_path_dynamically (lines 144-151): true when some
entry of the path lies in an area whose hazard level exceeds 0.8. -/
def path_has_hazard (m : ShoppingMallMap) (p : EvacuationPath) : Bool :=
  p.area_ids.any (fun aid =>
    m.areas.any (fun a => a.id == aid && decide ((8 : ℚ) / 10 < a.hazard_level)))

/-- update_path_dynamically (main.c, lines 142-156): replan from the current
area to find_nearest_exit when the active path touches a hazardous area,
otherwise return the path unchanged. -/
def update_path_dynamically (m : ShoppingMallMap) (p : EvacuationPath)
    (current_area : Int) : EvacuationPath :=
  if path_has_hazard m p then
    find_evacuation_path m current_area (find_nearest_exit m current_area)
  else p

/-- Fixture for the replanning claim: area 1 is hazardous (hazard 1.0), area 2
is an exit 100 away from area 1, area 3 is an exit only 1 away from area 1.
Area 2 is listed before area 3. -/
def hazard_map : ShoppingMallMap :=
  ⟨[⟨1, "atrium", 0, 1⟩, ⟨2, "far exit", 1, 0⟩, ⟨3, "near exit", 1, 0⟩],
   [⟨1, 2, 100, 0⟩, ⟨1, 3, 1, 0⟩]⟩

/-- An active path through the hazardous area 1 of hazard_map. -/
def hazard_path : EvacuationPath := ⟨[1, 3], 1⟩

/-- Fixture with no hazard anywhere: area 1 is safe, area 2 is a safe exit. -/
def safe_map : ShoppingMallMap :=
  ⟨[⟨1, "lobby", 0, 0⟩, ⟨2, "east exit", 1, 1 / 2⟩], [⟨1, 2, 5, 0⟩]⟩

/-- An active path on safe_map. -/
def safe_path : EvacuationPath := ⟨[1, 2], 5⟩

end MallMain

/-! ## Helper lemmas for the A* planner -/

namespace PathPlanning

theorem find_min_open_skip (st : astar_state) (l : List Nat) (acc : ℚ × Int)
    (h : ∀ i ∈ l, st.open_set i = false) :
    l.foldl (fun acc i =>
      if st.open_set i = true ∧ st.f_score i < acc.1 then (st.f_score i, (i : Int))
      else acc) acc = acc := by
  induction l generalizing acc with
  | nil => rfl
  | cons a t ih =>
      simp only [List.foldl_cons]
      rw [if_neg]
      · exact ih acc (fun i hi => h i (List.mem_cons_of_mem a hi))
      · rw [h a (List.mem_cons_self a t)]
        simp

theorem find_min_open_single (st : astar_state) (n u : Nat) (hu : u < n)
    (hopen : ∀ i, st.open_set i = true ↔ i = u) (hf : st.f_score u < FLT_MAX) :
    find_min_open st n = (st.f_score u, (u : Int)) := by
  have hcl : ∀ i, i ≠ u → st.open_set i = false := by
    intro i hne
    cases hso : st.open_set i with
    | false => rfl
    | true => exact absurd ((hopen i).mp hso) hne
  induction n with
  | zero => omega
  | succ m ih =>
      unfold find_min_open
      rw [List.range_succ, List.foldl_append]
      by_cases hum : u = m
      · subst hum
        rw [find_min_open_skip st (List.range u) _
          (fun i hi => hcl i (by have := List.mem_range.mp hi; omega))]
        simp only [List.foldl_cons, List.foldl_nil]
        rw [if_pos ⟨(hopen u).mpr rfl, hf⟩]
      · have hum2 : u < m := by omega
        have := ih hum2
        unfold find_min_open at this
        rw [this]
        simp only [List.foldl_cons, List.foldl_nil]
        rw [if_neg]
        intro hcon
        exact hum ((hopen m).mp hcon.1).symm

theorem astar_loop_first_step (sqrtFn : ℚ → ℚ) (nodes : List graph_node_t)
    (edges : List graph_edge_t) (v_idx fuel u : Nat) (st : astar_state)
    (huv : u ≠ v_idx) (hun : u < nodes.length)
    (hopen : ∀ i, st.open_set i = true ↔ i = u)
    (hf : st.f_score u < FLT_MAX) :
    astar_loop sqrtFn nodes edges v_idx (fuel + 1) st =
      astar_loop sqrtFn nodes edges v_idx fuel
        (relax_edges sqrtFn nodes edges v_idx u (close_node st u)) := by
  simp only [astar_loop, find_min_open_single st nodes.length u hun hopen hf]
  rw [if_neg (by omega), if_neg (by intro hcon; exact huv (by exact_mod_cast hcon))]
  simp

/-- Equivalence of search states: all components equal except that the f
scores need only agree on open nodes (the search never reads the f score of a
node outside the open set). -/
def state_equiv (st1 st2 : astar_state) : Prop :=
  st1.g_score = st2.g_score ∧ st1.prev_node_idx = st2.prev_node_idx ∧
  st1.open_set = st2.open_set ∧ st1.closed_set = st2.closed_set ∧
  ∀ i, st1.open_set i = true → st1.f_score i = st2.f_score i

theorem fold_min_congr (st1 st2 : astar_state) (h : state_equiv st1 st2)
    (l : List Nat) (acc : ℚ × Int) :
    l.foldl (fun acc i =>
      if st1.open_set i = true ∧ st1.f_score i < acc.1 then (st1.f_score i, (i : Int))
      else acc) acc =
    l.foldl (fun acc i =>
      if st2.open_set i = true ∧ st2.f_score i < acc.1 then (st2.f_score i, (i : Int))
      else acc) acc := by
  obtain ⟨hg, hp, ho, hc, hf⟩ := h
  induction l generalizing acc with
  | nil => rfl
  | cons a t ih =>
      simp only [List.foldl_cons]
      by_cases hoa : st1.open_set a = true
      · rw [show st1.f_score a = st2.f_score a from hf a hoa] at *
        rw [show st1.open_set a = st2.open_set a from by rw [ho]] at *
        exact ih _
      · have hoa2 : st2.open_set a = true → False := by rw [← ho]; exact hoa
        rw [if_neg (fun hcon => hoa hcon.1), if_neg (fun hcon => hoa2 hcon.1)]
        exact ih acc

theorem find_min_open_congr (st1 st2 : astar_state) (h : state_equiv st1 st2) (n : Nat) :
    find_min_open st1 n = find_min_open st2 n :=
  fold_min_congr st1 st2 h (List.range n) (FLT_MAX, -1)

theorem close_node_equiv (st1 st2 : astar_state) (h : state_equiv st1 st2) (c : Nat) :
    state_equiv (close_node st1 c) (close_node st2 c) := by
  obtain ⟨hg, hp, ho, hc, hf⟩ := h
  refine ⟨hg, hp, by simp only [close_node]; rw [ho],
    by simp only [close_node]; rw [hc], ?_⟩
  intro i hi
  simp only [close_node] at hi ⊢
  by_cases hic : i = c
  · simp [hic] at hi
  · simp only [if_neg hic] at hi
    exact hf i hi

theorem find_node_index_from_spec (nid : Int) :
    ∀ (nodes : List graph_node_t) (k : Nat),
      find_node_index_from nodes nid k = -1 ∨
        ∃ j : Nat, find_node_index_from nodes nid k = (j : Int) ∧ k ≤ j ∧
          j < k + nodes.length := by
  intro nodes
  induction nodes with
  | nil => intro k; exact Or.inl rfl
  | cons n rest ih =>
      intro k
      simp only [find_node_index_from]
      by_cases hm : n.node_id = nid
      · rw [if_pos hm]
        exact Or.inr ⟨k, rfl, le_refl k, by simp⟩
      · rw [if_neg hm]
        rcases ih (k + 1) with h | ⟨j, hj, hk, hlen⟩
        · exact Or.inl h
        · refine Or.inr ⟨j, hj, by omega, by simp only [List.length_cons]; omega⟩

theorem find_node_index_lt (nodes : List graph_node_t) (nid : Int)
    (h : find_node_index_by_id nodes nid ≠ -1) :
    (find_node_index_by_id nodes nid).toNat < nodes.length := by
  rcases find_node_index_from_spec nid nodes 0 with hc | ⟨j, hj, _, hlen⟩
  · exact absurd hc h
  · unfold find_node_index_by_id
    rw [hj]
    simpa using hlen

theorem relax_fold_congr (s1 s2 : ℚ → ℚ) (nodes : List graph_node_t)
    (v_idx c : Nat) (P : Nat → Bool)
    (hh : ∀ i, i < nodes.length → P i = false →
      heuristic s1 nodes i v_idx = heuristic s2 nodes i v_idx) :
    ∀ (edges : List graph_edge_t) (st1 st2 : astar_state),
      state_equiv st1 st2 → st1.closed_set = P →
      state_equiv (relax_edges s1 nodes edges v_idx c st1)
          (relax_edges s2 nodes edges v_idx c st2) ∧
        (relax_edges s1 nodes edges v_idx c st1).closed_set = P := by
  intro edges
  induction edges with
  | nil => intro st1 st2 h hcl; exact ⟨h, hcl⟩
  | cons e rest ih =>
      intro st1 st2 h hcl
      obtain ⟨hg, hp, ho, hc, hf⟩ := h
      simp only [relax_edges, List.foldl_cons] at *
      by_cases hstart : e.start_node = (nodes.getD c default_node).node_id
      · rw [if_pos hstart, if_pos hstart]
        set nIdx : Int := find_node_index_by_id nodes e.end_node with hn
        by_cases hne : nIdx ≠ -1 ∧ st1.closed_set nIdx.toNat = false
        · have hne2 : nIdx ≠ -1 ∧ st2.closed_set nIdx.toNat = false := by
            rw [← hc]; exact hne
          rw [if_pos hne, if_pos hne2]
          by_cases hupd : st1.open_set nIdx.toNat = false ∨
              st1.g_score c + edge_cost e < st1.g_score nIdx.toNat
          · have hupd2 : st2.open_set nIdx.toNat = false ∨
                st2.g_score c + edge_cost e < st2.g_score nIdx.toNat := by
              rw [← ho, ← hg]; exact hupd
            rw [if_pos hupd, if_pos hupd2]
            refine ih _ _ ⟨?_, ?_, ?_, ?_, ?_⟩ (by simpa using hcl)
            · rw [hg]
            · rw [hp]
            · rw [ho]
            · exact hc
            · intro i hi
              by_cases hin : i = nIdx.toNat
              · subst hin
                simp [hg, hh _ (find_node_index_lt nodes e.end_node hne.1)
                  (by rw [← hcl]; exact hne.2)]
              · simp only [if_neg hin] at hi ⊢
                exact hf i hi
          · have hupd2 : ¬(st2.open_set nIdx.toNat = false ∨
                st2.g_score c + edge_cost e < st2.g_score nIdx.toNat) := by
              rw [← ho, ← hg]; exact hupd
            rw [if_neg hupd, if_neg hupd2]
            exact ih _ _ ⟨hg, hp, ho, hc, hf⟩ hcl
        · have hne2 : ¬(nIdx ≠ -1 ∧ st2.closed_set nIdx.toNat = false) := by
            rw [← hc]; exact hne
          rw [if_neg hne, if_neg hne2]
          exact ih _ _ ⟨hg, hp, ho, hc, hf⟩ hcl
      · rw [if_neg hstart, if_neg hstart]
        exact ih _ _ ⟨hg, hp, ho, hc, hf⟩ hcl

theorem astar_run_congr (s1 s2 : ℚ → ℚ) (nodes : List graph_node_t)
    (edges : List graph_edge_t) (v_idx : Nat) :
    ∀ (fuel : Nat) (st1 st2 : astar_state), state_equiv st1 st2 →
      (∀ i, i < nodes.length → st1.closed_set i = false →
        heuristic s1 nodes i v_idx = heuristic s2 nodes i v_idx) →
      astar_to_path nodes edges v_idx (astar_loop s1 nodes edges v_idx fuel st1) =
        astar_to_path nodes edges v_idx (astar_loop s2 nodes edges v_idx fuel st2) := by
  intro fuel
  induction fuel with
  | zero => intro st1 st2 h hh; rfl
  | succ fuel ih =>
      intro st1 st2 h hh
      simp only [astar_loop]
      rw [find_min_open_congr st1 st2 h]
      by_cases hm1 : (find_min_open st2 nodes.length).2 = -1
      · rw [if_pos hm1, if_pos hm1]
      · rw [if_neg hm1, if_neg hm1]
        by_cases hmv : (find_min_open st2 nodes.length).2 = (v_idx : Int)
        · rw [if_pos hmv, if_pos hmv]
          simp only [astar_to_path]
          rw [h.2.1]
        · rw [if_neg hmv, if_neg hmv]
          have hhc : ∀ i, i < nodes.length →
              (close_node st1 (find_min_open st2 nodes.length).2.toNat).closed_set i =
                false →
              heuristic s1 nodes i v_idx = heuristic s2 nodes i v_idx := by
            intro i hilen hi
            apply hh i hilen
            simp only [close_node] at hi
            by_cases hic : i = (find_min_open st2 nodes.length).2.toNat
            · rw [if_pos hic] at hi; cases hi
            · rw [if_neg hic] at hi; exact hi
          have hmain := relax_fold_congr s1 s2 nodes v_idx
              (find_min_open st2 nodes.length).2.toNat
              (close_node st1 (find_min_open st2 nodes.length).2.toNat).closed_set hhc
              edges
              (close_node st1 (find_min_open st2 nodes.length).2.toNat)
              (close_node st2 (find_min_open st2 nodes.length).2.toNat)
              (close_node_equiv st1 st2 h _) rfl
          refine ih _ _ hmain.1 ?_
          intro i hilen hi
          rw [hmain.2] at hi
          exact hhc i hilen hi

end PathPlanning

/-! ## Claim theorems -/

namespace PathPlanning

/-- C1: the planner weighs each edge at base_distance * (1 + 10 * risk_factor),
and on the square test fixture (nodes 1-4, areas 101-104, four perimeter edges
of distance 10 and the diagonal node1-node3 of distance 14.14) the planner
returns the direct 2-node diagonal path of total distance 14.14 when every
risk factor is 0, and the two-hop route through node 2 (total distance 20)
once only the diagonal edge carries risk factor 1.0.  The square-root function
of the heuristic is abstract, assumed only to take the float-exact values at
the perfect squares 0 and 100 and any value below FLT_MAX at 200. -/
theorem C1_risk_weighted_selection (s : ℚ → ℚ) (h0 : s 0 = 0) (h100 : s 100 = 10)
    (h200 : s 200 < FLT_MAX) :
    (∀ e : graph_edge_t, edge_cost e = e.distance * (1 + 10 * e.risk_factor)) ∧
    find_safe_path s square_graph 101 103 =
      some ⟨[⟨1, 0, 0, 101⟩, ⟨3, 10, 10, 103⟩], 707 / 50, 0⟩ ∧
    find_safe_path s square_graph_risky 101 103 =
      some ⟨[⟨1, 0, 0, 101⟩, ⟨2, 10, 0, 102⟩, ⟨3, 10, 10, 103⟩], 20, 0⟩ := by
  refine ⟨fun e => rfl, ?_, ?_⟩
  · have e1 : heuristic s square_graph.nodes 1 2 = s 100 := by with_unfolding_all rfl
    have e2 : heuristic s square_graph.nodes 2 2 = s 0 := by with_unfolding_all rfl
    have e3 : heuristic s square_graph.nodes 3 2 = s 100 := by with_unfolding_all rfl
    have f1 : heuristic sample_sqrt square_graph.nodes 1 2 = 10 := by
      with_unfolding_all rfl
    have f2 : heuristic sample_sqrt square_graph.nodes 2 2 = 0 := by
      with_unfolding_all rfl
    have f3 : heuristic sample_sqrt square_graph.nodes 3 2 = 10 := by
      with_unfolding_all rfl
    have hcore : ∀ i, i < 4 → ¬i = 0 →
        heuristic s square_graph.nodes i 2 =
          heuristic sample_sqrt square_graph.nodes i 2 := by
      intro i h4 hne
      interval_cases i
      · exact absurd rfl hne
      · rw [e1, f1, h100]
      · rw [e2, f2, h0]
      · rw [e3, f3, h100]
    have hlen : square_graph.nodes.length = 4 := by decide
    have hPc : (close_node (initial_state s square_graph.nodes 0 2) 0).closed_set =
        (fun i => if i = 0 then true else false) := by with_unfolding_all rfl
    have hequiv0 : state_equiv (close_node (initial_state s square_graph.nodes 0 2) 0)
        (close_node (initial_state sample_sqrt square_graph.nodes 0 2) 0) := by
      refine ⟨rfl, rfl, rfl, rfl, ?_⟩
      intro i hi
      exfalso
      by_cases hic : i = 0 <;> simp [close_node, initial_state, hic] at hi
    have hX := relax_fold_congr s sample_sqrt square_graph.nodes 2 0
        (close_node (initial_state s square_graph.nodes 0 2) 0).closed_set
        (fun i hilen hi => hcore i (hlen ▸ hilen) (by
          rw [hPc] at hi
          by_cases hic : i = 0
          · subst hic; simp at hi
          · exact hic))
        square_graph.edges _ _ hequiv0 rfl
    rw [show find_safe_path s square_graph 101 103 =
        astar_to_path square_graph.nodes square_graph.edges 2
          (astar_loop s square_graph.nodes square_graph.edges 2 (4 + 1)
            (initial_state s square_graph.nodes 0 2)) from rfl]
    rw [astar_loop_first_step s square_graph.nodes square_graph.edges 2 4 0 _
      (by omega) (by decide)
      (fun i => by by_cases hi : i = 0 <;> simp [initial_state, hi])
      (by with_unfolding_all (exact h200))]
    rw [astar_run_congr s sample_sqrt square_graph.nodes square_graph.edges 2 4 _ _ hX.1
      (fun i hilen hi => hcore i (hlen ▸ hilen) (by
        rw [hX.2, hPc] at hi
        by_cases hic : i = 0
        · subst hic; simp at hi
        · exact hic))]
    with_unfolding_all rfl
  · have e1 : heuristic s square_graph_risky.nodes 1 2 = s 100 := by
      with_unfolding_all rfl
    have e2 : heuristic s square_graph_risky.nodes 2 2 = s 0 := by
      with_unfolding_all rfl
    have e3 : heuristic s square_graph_risky.nodes 3 2 = s 100 := by
      with_unfolding_all rfl
    have f1 : heuristic sample_sqrt square_graph_risky.nodes 1 2 = 10 := by
      with_unfolding_all rfl
    have f2 : heuristic sample_sqrt square_graph_risky.nodes 2 2 = 0 := by
      with_unfolding_all rfl
    have f3 : heuristic sample_sqrt square_graph_risky.nodes 3 2 = 10 := by
      with_unfolding_all rfl
    have hcore : ∀ i, i < 4 → ¬i = 0 →
        heuristic s square_graph_risky.nodes i 2 =
          heuristic sample_sqrt square_graph_risky.nodes i 2 := by
      intro i h4 hne
      interval_cases i
      · exact absurd rfl hne
      · rw [e1, f1, h100]
      · rw [e2, f2, h0]
      · rw [e3, f3, h100]
    have hlen : square_graph_risky.nodes.length = 4 := by decide
    have hPc : (close_node (initial_state s square_graph_risky.nodes 0 2) 0).closed_set =
        (fun i => if i = 0 then true else false) := by with_unfolding_all rfl
    have hequiv0 : state_equiv
        (close_node (initial_state s square_graph_risky.nodes 0 2) 0)
        (close_node (initial_state sample_sqrt square_graph_risky.nodes 0 2) 0) := by
      refine ⟨rfl, rfl, rfl, rfl, ?_⟩
      intro i hi
      exfalso
      by_cases hic : i = 0 <;> simp [close_node, initial_state, hic] at hi
    have hX := relax_fold_congr s sample_sqrt square_graph_risky.nodes 2 0
        (close_node (initial_state s square_graph_risky.nodes 0 2) 0).closed_set
        (fun i hilen hi => hcore i (hlen ▸ hilen) (by
          rw [hPc] at hi
          by_cases hic : i = 0
          · subst hic; simp at hi
          · exact hic))
        square_graph_risky.edges _ _ hequiv0 rfl
    rw [show find_safe_path s square_graph_risky 101 103 =
        astar_to_path square_graph_risky.nodes square_graph_risky.edges 2
          (astar_loop s square_graph_risky.nodes square_graph_risky.edges 2 (4 + 1)
            (initial_state s square_graph_risky.nodes 0 2)) from rfl]
    rw [astar_loop_first_step s square_graph_risky.nodes square_graph_risky.edges 2 4 0 _
      (by omega) (by decide)
      (fun i => by by_cases hi : i = 0 <;> simp [initial_state, hi])
      (by with_unfolding_all (exact h200))]
    rw [astar_run_congr s sample_sqrt square_graph_risky.nodes square_graph_risky.edges
      2 4 _ _ hX.1
      (fun i hilen hi => hcore i (hlen ▸ hilen) (by
        rw [hX.2, hPc] at hi
        by_cases hic : i = 0
        · subst hic; simp at hi
        · exact hic))]
    with_unfolding_all rfl

/-- Witness for C1: the hypotheses are discharged at the concrete sample
square root and the two planner runs evaluate to the claimed paths. -/
theorem C1_witness :
    sample_sqrt 0 = 0 ∧ sample_sqrt 100 = 10 ∧ sample_sqrt 200 < FLT_MAX ∧
    find_safe_path sample_sqrt square_graph 101 103 =
      some ⟨[⟨1, 0, 0, 101⟩, ⟨3, 10, 10, 103⟩], 707 / 50, 0⟩ ∧
    find_safe_path sample_sqrt square_graph_risky 101 103 =
      some ⟨[⟨1, 0, 0, 101⟩, ⟨2, 10, 0, 102⟩, ⟨3, 10, 10, 103⟩], 20, 0⟩ :=
  ⟨by decide, by decide, by decide,
   (C1_risk_weighted_selection sample_sqrt (by decide) (by decide) (by decide)).2.1,
   (C1_risk_weighted_selection sample_sqrt (by decide) (by decide) (by decide)).2.2⟩

end PathPlanning

namespace PathPlanning

/-- Helper: the area-resolution fold returns, in each component, the id of the
last node in array order carrying the respective area id (or -1 when none
does). -/
theorem resolve_spec (s e : Int) :
    ∀ nodes : List graph_node_t,
      resolve_area_node_ids nodes s e =
        ((match last_node_with_area nodes s with
          | some n => n.node_id
          | none => -1),
         (match last_node_with_area nodes e with
          | some n => n.node_id
          | none => -1)) := by
  intro nodes
  induction nodes using List.reverseRecOn with
  | nil => rfl
  | append_singleton l n ih =>
      unfold resolve_area_node_ids at *
      rw [List.foldl_append, List.foldl_cons, List.foldl_nil, ih]
      unfold last_node_with_area
      rw [List.filter_append]
      refine Prod.ext ?_ ?_
      · by_cases hs : n.area_id = s
        · simp [hs, List.getLast?_concat]
        · simp only [List.filter_cons, List.filter_nil]
          rw [if_neg (by simpa using hs)]
          simp [hs]
      · by_cases he : n.area_id = e
        · simp [he, List.getLast?_concat]
        · simp only [List.filter_cons, List.filter_nil]
          rw [if_neg (by simpa using he)]
          simp [he]

/-- C2 counterexample: in dup_area_graph the first node of the array carrying
area id 101 is node 1, yet the area resolution of find_safe_path resolves
area 101 to node 2, so first-match semantics fails. -/
theorem C2_counterexample :
    (dup_area_graph.nodes.filter (fun n => n.area_id == 101)).head? =
      some ⟨1, 101, 0, 0⟩ ∧
    (resolve_area_node_ids dup_area_graph.nodes 101 103).1 = 2 ∧
    (2 : Int) ≠ 1 := by
  decide

/-- C2 amended: when several nodes share an area id, the area resolution of
find_safe_path returns the last node in array order carrying that id, i.e.
the latest-inserted one (and -1 when no node carries it), for both the start
and the end area. -/
theorem C2_resolution_is_last_match (nodes : List graph_node_t)
    (start_area_id end_area_id : Int) :
    resolve_area_node_ids nodes start_area_id end_area_id =
      ((match last_node_with_area nodes start_area_id with
        | some n => n.node_id
        | none => -1),
       (match last_node_with_area nodes end_area_id with
        | some n => n.node_id
        | none => -1)) :=
  resolve_spec start_area_id end_area_id nodes

end PathPlanning

namespace MallMain

theorem path_has_hazard_iff (m : ShoppingMallMap) (p : EvacuationPath) :
    path_has_hazard m p = true ↔
      ∃ aid ∈ p.area_ids, ∃ a ∈ m.areas, a.id = aid ∧ (8 : ℚ) / 10 < a.hazard_level := by
  simp [path_has_hazard, List.any_eq_true]

theorem C3_counterexample :
    update_path_dynamically hazard_map hazard_path 1 = ⟨[1, 2], 100⟩ ∧
    hazard_map.areas.getD 2 ⟨0, "", 0, 0⟩ = ⟨3, "near exit", 1, 0⟩ ∧
    connection_between hazard_map.connections 1 3 = some ⟨1, 3, 1, 0⟩ ∧
    connection_between hazard_map.connections 1 2 = some ⟨1, 2, 100, 0⟩ ∧
    (1 : ℚ) < 100 := by
  with_unfolding_all decide

theorem C3_replans_to_first_listed_exit :
    (∀ (m : ShoppingMallMap) (p : EvacuationPath) (c : Int),
      (∃ aid ∈ p.area_ids, ∃ a ∈ m.areas, a.id = aid ∧ (8 : ℚ) / 10 < a.hazard_level) →
      update_path_dynamically m p c =
        find_evacuation_path m c (find_nearest_exit m c)) ∧
    (∀ (m : ShoppingMallMap) (c : Int) (l1 l2 : List Area) (a : Area),
      m.areas = l1 ++ a :: l2 → (∀ b ∈ l1, b.is_exit = 0) → a.is_exit ≠ 0 →
      find_nearest_exit m c = a.id) := by
  constructor
  · intro m p c h
    rw [update_path_dynamically, if_pos ((path_has_hazard_iff m p).mpr h)]
  · intro m c l1 l2 a hm hl1 ha
    unfold find_nearest_exit
    rw [hm, List.find?_append]
    have hfl1 : l1.find? (fun a => a.is_exit != 0) = none := by
      rw [List.find?_eq_none]
      intro b hb
      simp [hl1 b hb]
    rw [hfl1]
    rw [show List.find? (fun a => a.is_exit != 0) (a :: l2) = some a from
      List.find?_cons_of_pos _ (by simpa [bne_iff_ne] using ha)]
    rfl

theorem C3_witness :
    update_path_dynamically hazard_map hazard_path 1 =
      find_evacuation_path hazard_map 1 (find_nearest_exit hazard_map 1) ∧
    find_nearest_exit hazard_map 1 = 2 :=
  ⟨C3_replans_to_first_listed_exit.1 hazard_map hazard_path 1
    (by with_unfolding_all decide),
   C3_replans_to_first_listed_exit.2 hazard_map 1 [⟨1, "atrium", 0, 1⟩]
    [⟨3, "near exit", 1, 0⟩] ⟨2, "far exit", 1, 0⟩ rfl (by decide) (by decide)⟩

theorem C4_no_hazard_keeps_path (m : ShoppingMallMap) (p : EvacuationPath) (c : Int)
    (h : ¬∃ aid ∈ p.area_ids, ∃ a ∈ m.areas,
      a.id = aid ∧ (8 : ℚ) / 10 < a.hazard_level) :
    update_path_dynamically m p c = p ∧
    (update_path_dynamically m p c).area_ids = p.area_ids ∧
    (update_path_dynamically m p c).area_ids.length = p.area_ids.length ∧
    (update_path_dynamically m p c).total_distance = p.total_distance := by
  have hfalse : path_has_hazard m p = false := by
    cases hb : path_has_hazard m p with
    | false => rfl
    | true => exact absurd ((path_has_hazard_iff m p).mp hb) h
  have hupd : update_path_dynamically m p c = p := by
    rw [update_path_dynamically, hfalse]
    simp
  exact ⟨hupd, by rw [hupd], by rw [hupd], by rw [hupd]⟩

theorem C4_witness :
    update_path_dynamically safe_map safe_path 7 = safe_path ∧
    (update_path_dynamically safe_map safe_path 7).area_ids = safe_path.area_ids ∧
    (update_path_dynamically safe_map safe_path 7).area_ids.length =
      safe_path.area_ids.length ∧
    (update_path_dynamically safe_map safe_path 7).total_distance =
      safe_path.total_distance :=
  C4_no_hazard_keeps_path safe_map safe_path 7 (by with_unfolding_all decide)

end MallMain

namespace PathPlanning

theorem node_id_exists_iff (l : List graph_node_t) (nid : Int) :
    node_id_exists l nid = true ↔ ∃ n ∈ l, n.node_id = nid := by
  induction l with
  | nil => simp [node_id_exists]
  | cons n rest ih =>
      by_cases h : n.node_id = nid <;> simp [node_id_exists, h, ih]

theorem edge_id_exists_iff (l : List graph_edge_t) (eid : Int) :
    edge_id_exists l eid = true ↔ ∃ e ∈ l, e.edge_id = eid := by
  induction l with
  | nil => simp [edge_id_exists]
  | cons e rest ih =>
      by_cases h : e.edge_id = eid <;> simp [edge_id_exists, h, ih]

theorem add_node_spec (g : graph_t) (node_id area_id : Int) (x y : ℚ) :
    add_node g node_id area_id x y =
      if (∃ n ∈ g.nodes, n.node_id = node_id) ∨ MAX_NODES ≤ g.nodes.length
      then (-1, g)
      else (0, { g with nodes := g.nodes ++ [⟨node_id, area_id, x, y⟩] }) := by
  unfold add_node
  by_cases h1 : ∃ n ∈ g.nodes, n.node_id = node_id
  · rw [if_pos ((node_id_exists_iff _ _).mpr h1), if_pos (Or.inl h1)]
  · have hb : node_id_exists g.nodes node_id = false := by
      rw [← Bool.not_eq_true, node_id_exists_iff]; exact h1
    simp only [hb, Bool.false_eq_true, if_false]
    by_cases h2 : MAX_NODES ≤ g.nodes.length
    · rw [if_pos h2, if_pos (Or.inr h2)]
    · rw [if_neg h2, if_neg (not_or.mpr ⟨h1, h2⟩)]

theorem add_edge_spec (g : graph_t) (edge_id start_node end_node : Int) (distance : ℚ) :
    add_edge g edge_id start_node end_node distance =
      if (∃ e ∈ g.edges, e.edge_id = edge_id) ∨ MAX_EDGES ≤ g.edges.length ∨
          ¬(∃ n ∈ g.nodes, n.node_id = start_node) ∨
          ¬(∃ n ∈ g.nodes, n.node_id = end_node)
      then (-1, g)
      else (0, { g with
        edges := g.edges ++ [⟨edge_id, start_node, end_node, distance, 0⟩] }) := by
  unfold add_edge
  by_cases h1 : ∃ e ∈ g.edges, e.edge_id = edge_id
  · rw [if_pos ((edge_id_exists_iff _ _).mpr h1), if_pos (Or.inl h1)]
  · have hb : edge_id_exists g.edges edge_id = false := by
      rw [← Bool.not_eq_true, edge_id_exists_iff]; exact h1
    simp only [hb, Bool.false_eq_true, if_false]
    by_cases h2 : MAX_EDGES ≤ g.edges.length
    · rw [if_pos h2, if_pos (Or.inr (Or.inl h2))]
    · rw [if_neg h2]
      by_cases h3 : ∃ n ∈ g.nodes, n.node_id = start_node
      · by_cases h4 : ∃ n ∈ g.nodes, n.node_id = end_node
        · rw [(node_id_exists_iff _ _).mpr h3, (node_id_exists_iff _ _).mpr h4]
          rw [if_neg (by simp),
            if_neg (not_or.mpr ⟨h1, not_or.mpr ⟨h2,
              not_or.mpr ⟨not_not.mpr h3, not_not.mpr h4⟩⟩⟩)]
        · have hb4 : node_id_exists g.nodes end_node = false := by
            rw [← Bool.not_eq_true, node_id_exists_iff]; exact h4
          rw [hb4, if_pos (Or.inr rfl),
            if_pos (Or.inr (Or.inr (Or.inr h4)))]
      · have hb3 : node_id_exists g.nodes start_node = false := by
          rw [← Bool.not_eq_true, node_id_exists_iff]; exact h3
        rw [hb3, if_pos (Or.inl rfl), if_pos (Or.inr (Or.inr (Or.inl h3)))]

theorem add_node_edges (g : graph_t) (node_id area_id : Int) (x y : ℚ) :
    (add_node g node_id area_id x y).2.edges = g.edges := by
  rw [add_node_spec]; split_ifs <;> rfl

theorem clamp01_bounds (r : ℚ) : 0 ≤ clamp01 r ∧ clamp01 r ≤ 1 := by
  unfold clamp01
  split_ifs <;> constructor <;> linarith

theorem add_edge_pres (P : graph_edge_t → Prop) (hP : ∀ eid s e d, P ⟨eid, s, e, d, 0⟩)
    (g : graph_t) (eid s e : Int) (d : ℚ) (h : ∀ ed ∈ g.edges, P ed) :
    ∀ ed ∈ (add_edge g eid s e d).2.edges, P ed := by
  rw [add_edge_spec]
  split_ifs
  · exact h
  · intro ed hed
    rcases List.mem_append.mp hed with h1 | h2
    · exact h ed h1
    · rw [List.mem_singleton.mp h2]
      exact hP eid s e d

theorem load_edges_pres (P : graph_edge_t → Prop) (hP : ∀ eid s e d, P ⟨eid, s, e, d, 0⟩) :
    ∀ (lines : List MapLine) (g : graph_t), (∀ ed ∈ g.edges, P ed) →
      ∀ ed ∈ (load_edges_loop g lines).2.edges, P ed := by
  intro lines
  induction lines with
  | nil => intro g h; exact h
  | cons line rest ih =>
      intro g h
      cases line with
      | edge_line eid s e d =>
          simp only [load_edges_loop]
          by_cases hr : (add_edge g eid s e d).1 = 0
          · rw [if_pos hr]
            exact ih _ (add_edge_pres P hP g eid s e d h)
          · rw [if_neg hr]
            exact add_edge_pres P hP g eid s e d h
      | nodes_header => exact ih g h
      | edges_header => exact ih g h
      | node_line nid aid x y => exact ih g h
      | other => exact ih g h

theorem load_nodes_pres (P : graph_edge_t → Prop) (hP : ∀ eid s e d, P ⟨eid, s, e, d, 0⟩) :
    ∀ (lines : List MapLine) (g : graph_t), (∀ ed ∈ g.edges, P ed) →
      ∀ ed ∈ (load_nodes_loop g lines).2.edges, P ed := by
  intro lines
  induction lines with
  | nil => intro g h; exact h
  | cons line rest ih =>
      intro g h
      cases line with
      | edges_header => exact load_edges_pres P hP rest g h
      | node_line nid aid x y =>
          simp only [load_nodes_loop]
          by_cases hr : (add_node g nid aid x y).1 = 0
          · rw [if_pos hr]
            refine ih _ ?_
            rw [add_node_edges]
            exact h
          · rw [if_neg hr]
            intro ed hed
            rw [add_node_edges] at hed
            exact h ed hed
      | nodes_header => exact ih g h
      | edge_line eid s e d => exact ih g h
      | other => exact ih g h

theorem load_map_pres (P : graph_edge_t → Prop) (hP : ∀ eid s e d, P ⟨eid, s, e, d, 0⟩)
    (file : Option (List MapLine)) :
    ∀ ed ∈ (load_map_data path_planning_init file).2.edges, P ed := by
  cases file with
  | none => intro ed hed; cases hed
  | some lines =>
      cases lines with
      | nil => intro ed hed; cases hed
      | cons first rest =>
          simp only [load_map_data]
          by_cases hh : first = MapLine.nodes_header
          · rw [if_pos hh]
            exact load_nodes_pres P hP rest path_planning_init (by intro ed hed; cases hed)
          · rw [if_neg hh]
            intro ed hed; cases hed

end PathPlanning

namespace PathPlanning

theorem C5_risk_always_clamped :
    (∀ (g : graph_t) (node_id area_id : Int) (x y : ℚ),
      (∀ ed ∈ g.edges, 0 ≤ ed.risk_factor ∧ ed.risk_factor ≤ 1) →
      ∀ ed ∈ (add_node g node_id area_id x y).2.edges,
        0 ≤ ed.risk_factor ∧ ed.risk_factor ≤ 1) ∧
    (∀ (g : graph_t) (edge_id start_node end_node : Int) (distance : ℚ),
      (∀ ed ∈ g.edges, 0 ≤ ed.risk_factor ∧ ed.risk_factor ≤ 1) →
      ∀ ed ∈ (add_edge g edge_id start_node end_node distance).2.edges,
        0 ≤ ed.risk_factor ∧ ed.risk_factor ≤ 1) ∧
    (∀ (g : graph_t) (env : EnvironmentalData_t),
      ∀ ed ∈ (update_edge_risks g env).2.edges,
        0 ≤ ed.risk_factor ∧ ed.risk_factor ≤ 1) := by
  refine ⟨?_, ?_, ?_⟩
  · intro g node_id area_id x y h ed hed
    rw [add_node_edges] at hed
    exact h ed hed
  · intro g eid s e d h
    exact add_edge_pres (fun ed => 0 ≤ ed.risk_factor ∧ ed.risk_factor ≤ 1)
      (fun _ _ _ _ => by norm_num) g eid s e d h
  · intro g env ed hed
    simp only [update_edge_risks, List.mem_map] at hed
    obtain ⟨e0, _, he⟩ := hed
    rw [← he]
    exact clamp01_bounds (edge_new_risk env)

theorem C5_witness :
    ((0 : ℚ) ≤ (graph_edge_t.mk 1 1 2 5 0).risk_factor ∧
      (graph_edge_t.mk 1 1 2 5 0).risk_factor ≤ 1) ∧
    ((0 : ℚ) ≤ (graph_edge_t.mk 1 1 2 10 (13 / 20)).risk_factor ∧
      (graph_edge_t.mk 1 1 2 10 (13 / 20)).risk_factor ≤ 1) :=
  ⟨C5_risk_always_clamped.2.1 dup_area_graph 1 1 2 5 (by decide) _
    (by with_unfolding_all decide),
   C5_risk_always_clamped.2.2 square_graph dummy_env_data _
    (by with_unfolding_all decide)⟩

theorem C7_insert_rejection :
    (∀ (g : graph_t) (node_id area_id : Int) (x y : ℚ),
      add_node g node_id area_id x y =
        if (∃ n ∈ g.nodes, n.node_id = node_id) ∨ MAX_NODES ≤ g.nodes.length
        then (-1, g)
        else (0, { g with nodes := g.nodes ++ [⟨node_id, area_id, x, y⟩] })) ∧
    (∀ (g : graph_t) (edge_id start_node end_node : Int) (distance : ℚ),
      add_edge g edge_id start_node end_node distance =
        if (∃ e ∈ g.edges, e.edge_id = edge_id) ∨ MAX_EDGES ≤ g.edges.length ∨
            ¬(∃ n ∈ g.nodes, n.node_id = start_node) ∨
            ¬(∃ n ∈ g.nodes, n.node_id = end_node)
        then (-1, g)
        else (0, { g with
          edges := g.edges ++ [⟨edge_id, start_node, end_node, distance, 0⟩] })) :=
  ⟨add_node_spec, add_edge_spec⟩

theorem C10_initial_risk_zero :
    (∀ (g : graph_t) (edge_id start_node end_node : Int) (distance : ℚ) (g2 : graph_t),
      add_edge g edge_id start_node end_node distance = (0, g2) →
      g2.edges = g.edges ++ [⟨edge_id, start_node, end_node, distance, 0⟩]) ∧
    (∀ (file : Option (List MapLine)) (g2 : graph_t),
      load_map_data path_planning_init file = (0, g2) →
      ∀ ed ∈ g2.edges, ed.risk_factor = 0) ∧
    (∀ ed : graph_edge_t, ed.risk_factor = 0 → edge_cost ed = ed.distance) := by
  refine ⟨?_, ?_, ?_⟩
  · intro g eid s e d g2 h
    rw [add_edge_spec] at h
    split_ifs at h with hc
    · cases h
    · have h2 := congrArg Prod.snd h
      simp only at h2
      rw [← h2]
  · intro file g2 h ed hed
    have := load_map_pres (fun ed => ed.risk_factor = 0) (fun _ _ _ _ => rfl) file
    rw [h] at this
    exact this ed hed
  · intro ed h
    unfold edge_cost risk_weight
    rw [h]
    ring

theorem C10_witness :
    (add_edge dup_area_graph 1 1 2 5).2.edges =
      dup_area_graph.edges ++ [⟨1, 1, 2, 5, 0⟩] ∧
    (⟨1, 1, 2, 10, 0⟩ : graph_edge_t).risk_factor = 0 ∧
    edge_cost ⟨9, 1, 2, 7, 0⟩ = 7 :=
  ⟨C10_initial_risk_zero.1 dup_area_graph 1 1 2 5 _ (by with_unfolding_all decide),
   C10_initial_risk_zero.2.1 (some simple_map_file)
    ⟨[⟨1, 101, 0, 0⟩, ⟨2, 102, 5, 5⟩], [⟨1, 1, 2, 10, 0⟩]⟩
    (by with_unfolding_all decide) _ (by decide),
   C10_initial_risk_zero.2.2 ⟨9, 1, 2, 7, 0⟩ rfl⟩

end PathPlanning

namespace PathPlanning

theorem build_step_eq (nodes : List graph_node_t) (edges : List graph_edge_t)
    (p : path_t) (idx : Nat) (last : path_node_t) (h : p.nodes.getLast? = some last) :
    build_step nodes edges p idx =
      match find_segment_edge edges last.node_id (path_node_of nodes idx).node_id with
      | some e =>
          ⟨p.nodes ++ [path_node_of nodes idx], p.total_distance + e.distance,
            p.total_risk + e.risk_factor⟩
      | none => { p with nodes := p.nodes ++ [path_node_of nodes idx] } := by
  unfold build_step path_node_of
  rw [h]

theorem build_fold_spec (nodes : List graph_node_t) (edges : List graph_edge_t) :
    ∀ (order : List Nat) (p : path_t) (last : path_node_t),
      p.nodes.getLast? = some last →
      order.foldl (build_step nodes edges) p =
        ⟨p.nodes ++ order.map (path_node_of nodes),
         p.total_distance + route_sum (fun e => e.distance) edges
           (last.node_id :: order.map (fun idx => (path_node_of nodes idx).node_id)),
         p.total_risk + route_sum (fun e => e.risk_factor) edges
           (last.node_id :: order.map (fun idx => (path_node_of nodes idx).node_id))⟩ := by
  intro order
  induction order with
  | nil =>
      intro p last h
      simp [route_sum]
  | cons idx rest ih =>
      intro p last h
      rw [List.foldl_cons, build_step_eq nodes edges p idx last h]
      simp only [List.map_cons]
      cases hseg : find_segment_edge edges last.node_id (path_node_of nodes idx).node_id with
      | some e =>
          rw [ih ⟨p.nodes ++ [path_node_of nodes idx], p.total_distance + e.distance,
              p.total_risk + e.risk_factor⟩ (path_node_of nodes idx)
            (List.getLast?_concat _)]
          rw [show route_sum (fun e => e.distance) edges
              (last.node_id :: (path_node_of nodes idx).node_id ::
                rest.map (fun idx => (path_node_of nodes idx).node_id)) =
              (match find_segment_edge edges last.node_id (path_node_of nodes idx).node_id
               with
               | some e => e.distance
               | none => 0) + route_sum (fun e => e.distance) edges
                ((path_node_of nodes idx).node_id ::
                  rest.map (fun idx => (path_node_of nodes idx).node_id)) from rfl]
          rw [show route_sum (fun e => e.risk_factor) edges
              (last.node_id :: (path_node_of nodes idx).node_id ::
                rest.map (fun idx => (path_node_of nodes idx).node_id)) =
              (match find_segment_edge edges last.node_id (path_node_of nodes idx).node_id
               with
               | some e => e.risk_factor
               | none => 0) + route_sum (fun e => e.risk_factor) edges
                ((path_node_of nodes idx).node_id ::
                  rest.map (fun idx => (path_node_of nodes idx).node_id)) from rfl]
          rw [hseg]
          simp [List.append_assoc, add_assoc]
      | none =>
          rw [ih { p with nodes := p.nodes ++ [path_node_of nodes idx] }
            (path_node_of nodes idx) (List.getLast?_concat _)]
          rw [show route_sum (fun e => e.distance) edges
              (last.node_id :: (path_node_of nodes idx).node_id ::
                rest.map (fun idx => (path_node_of nodes idx).node_id)) =
              (match find_segment_edge edges last.node_id (path_node_of nodes idx).node_id
               with
               | some e => e.distance
               | none => 0) + route_sum (fun e => e.distance) edges
                ((path_node_of nodes idx).node_id ::
                  rest.map (fun idx => (path_node_of nodes idx).node_id)) from rfl]
          rw [show route_sum (fun e => e.risk_factor) edges
              (last.node_id :: (path_node_of nodes idx).node_id ::
                rest.map (fun idx => (path_node_of nodes idx).node_id)) =
              (match find_segment_edge edges last.node_id (path_node_of nodes idx).node_id
               with
               | some e => e.risk_factor
               | none => 0) + route_sum (fun e => e.risk_factor) edges
                ((path_node_of nodes idx).node_id ::
                  rest.map (fun idx => (path_node_of nodes idx).node_id)) from rfl]
          rw [hseg]
          simp [List.append_assoc]

theorem build_path_spec (nodes : List graph_node_t) (edges : List graph_edge_t)
    (order : List Nat) :
    (build_path nodes edges order).total_distance =
      route_sum (fun e => e.distance) edges
        ((build_path nodes edges order).nodes.map (fun n => n.node_id)) ∧
    (build_path nodes edges order).total_risk =
      route_sum (fun e => e.risk_factor) edges
        ((build_path nodes edges order).nodes.map (fun n => n.node_id)) := by
  cases order with
  | nil => exact ⟨rfl, rfl⟩
  | cons idx rest =>
      unfold build_path
      rw [List.foldl_cons]
      have hfirst : build_step nodes edges ⟨[], 0, 0⟩ idx =
          ⟨[path_node_of nodes idx], 0, 0⟩ := by
        unfold build_step path_node_of
        rfl
      rw [hfirst]
      rw [build_fold_spec nodes edges rest ⟨[path_node_of nodes idx], 0, 0⟩
        (path_node_of nodes idx) rfl]
      simp only [List.map_cons, List.map_map]
      exact ⟨by simp [Function.comp_def], by simp [Function.comp_def]⟩

end PathPlanning

namespace PathPlanning

theorem astar_to_path_spec (nodes : List graph_node_t) (edges : List graph_edge_t)
    (v_idx : Nat) (r : Option astar_state) (p : path_t)
    (h : astar_to_path nodes edges v_idx r = some p) :
    p.total_distance =
      route_sum (fun e => e.distance) edges (p.nodes.map (fun n => n.node_id)) ∧
    p.total_risk =
      route_sum (fun e => e.risk_factor) edges (p.nodes.map (fun n => n.node_id)) := by
  cases r with
  | none => exact Option.noConfusion h
  | some st =>
      have h2 : (match trace_back st.prev_node_idx (MAX_PATH_LENGTH + 1) (v_idx : Int) []
          with
          | none => (none : Option path_t)
          | some order_rev => some (build_path nodes edges order_rev.reverse)) =
          some p := h
      cases htr : trace_back st.prev_node_idx (MAX_PATH_LENGTH + 1) (v_idx : Int) [] with
      | none => rw [htr] at h2; exact Option.noConfusion h2
      | some rev =>
          rw [htr] at h2
          have hp : p = build_path nodes edges rev.reverse := (Option.some.inj h2).symm
          rw [hp]
          exact build_path_spec nodes edges rev.reverse

/-- C6: the reported totals of every successfully returned path are the sums
of the raw distances and of the unweighted risk factors of the first matching
segment edges along the returned node sequence; neither includes the
risk-aversion weight used for edge selection. -/
theorem C6_reported_totals (sqrtFn : ℚ → ℚ) (g : graph_t)
    (start_area_id end_area_id : Int) (p : path_t)
    (h : find_safe_path sqrtFn g start_area_id end_area_id = some p) :
    p.total_distance =
      route_sum (fun e => e.distance) g.edges (p.nodes.map (fun n => n.node_id)) ∧
    p.total_risk =
      route_sum (fun e => e.risk_factor) g.edges (p.nodes.map (fun n => n.node_id)) := by
  simp only [find_safe_path] at h
  split at h
  · exact Option.noConfusion h
  · split at h
    · exact Option.noConfusion h
    · exact astar_to_path_spec _ _ _ _ p h

/-- Witness for C6 at the square-fixture run with the sample square root. -/
theorem C6_witness :
    (path_t.mk [⟨1, 0, 0, 101⟩, ⟨3, 10, 10, 103⟩] (707 / 50) 0).total_distance =
      route_sum (fun e => e.distance) square_graph.edges
        ((path_t.mk [⟨1, 0, 0, 101⟩, ⟨3, 10, 10, 103⟩] (707 / 50) 0).nodes.map
          (fun n => n.node_id)) ∧
    (path_t.mk [⟨1, 0, 0, 101⟩, ⟨3, 10, 10, 103⟩] (707 / 50) 0).total_risk =
      route_sum (fun e => e.risk_factor) square_graph.edges
        ((path_t.mk [⟨1, 0, 0, 101⟩, ⟨3, 10, 10, 103⟩] (707 / 50) 0).nodes.map
          (fun n => n.node_id)) :=
  C6_reported_totals sample_sqrt square_graph 101 103
    ⟨[⟨1, 0, 0, 101⟩, ⟨3, 10, 10, 103⟩], 707 / 50, 0⟩ (by with_unfolding_all rfl)

end PathPlanning

namespace PathPlanning

theorem add_node_append (g : graph_t) (node_id area_id : Int) (x y : ℚ) :
    ∃ t, (add_node g node_id area_id x y).2.nodes = g.nodes ++ t ∧
      (add_node g node_id area_id x y).2.edges = g.edges := by
  rw [add_node_spec]
  split_ifs
  · exact ⟨[], by simp, rfl⟩
  · exact ⟨[⟨node_id, area_id, x, y⟩], rfl, rfl⟩

theorem add_edge_append (g : graph_t) (edge_id start_node end_node : Int) (d : ℚ) :
    ∃ t, (add_edge g edge_id start_node end_node d).2.edges = g.edges ++ t ∧
      (add_edge g edge_id start_node end_node d).2.nodes = g.nodes := by
  rw [add_edge_spec]
  split_ifs
  · exact ⟨[], by simp, rfl⟩
  · exact ⟨[⟨edge_id, start_node, end_node, d, 0⟩], rfl, rfl⟩

theorem load_edges_mono :
    ∀ (lines : List MapLine) (g : graph_t),
      ∃ te, (load_edges_loop g lines).2.nodes = g.nodes ∧
        (load_edges_loop g lines).2.edges = g.edges ++ te := by
  intro lines
  induction lines with
  | nil => intro g; exact ⟨[], rfl, by simp [load_edges_loop]⟩
  | cons line rest ih =>
      intro g
      cases line with
      | edge_line eid s e d =>
          simp only [load_edges_loop]
          obtain ⟨t0, he0, hn0⟩ := add_edge_append g eid s e d
          by_cases hr : (add_edge g eid s e d).1 = 0
          · rw [if_pos hr]
            obtain ⟨te, hn, he⟩ := ih (add_edge g eid s e d).2
            exact ⟨t0 ++ te, by rw [hn, hn0], by rw [he, he0, List.append_assoc]⟩
          · rw [if_neg hr]
            exact ⟨t0, hn0, he0⟩
      | nodes_header => exact ih g
      | edges_header => exact ih g
      | node_line nid aid x y => exact ih g
      | other => exact ih g

theorem load_nodes_mono :
    ∀ (lines : List MapLine) (g : graph_t),
      ∃ tn te, (load_nodes_loop g lines).2.nodes = g.nodes ++ tn ∧
        (load_nodes_loop g lines).2.edges = g.edges ++ te := by
  intro lines
  induction lines with
  | nil => intro g; exact ⟨[], [], by simp [load_nodes_loop], by simp [load_nodes_loop]⟩
  | cons line rest ih =>
      intro g
      cases line with
      | edges_header =>
          obtain ⟨te, hn, he⟩ := load_edges_mono rest g
          exact ⟨[], te, by simpa using hn, he⟩
      | node_line nid aid x y =>
          simp only [load_nodes_loop]
          obtain ⟨t0, hn0, he0⟩ := add_node_append g nid aid x y
          by_cases hr : (add_node g nid aid x y).1 = 0
          · rw [if_pos hr]
            obtain ⟨tn, te, hn, he⟩ := ih (add_node g nid aid x y).2
            exact ⟨t0 ++ tn, te, by rw [hn, hn0, List.append_assoc],
              by rw [he, he0]⟩
          · rw [if_neg hr]
            exact ⟨t0, [], hn0, by simpa using he0⟩
      | nodes_header => exact ih g
      | edge_line eid s e d => exact ih g
      | other => exact ih g

/-- C8 counterexample: loading a file whose second node line reuses node id 1
fails with -1 but the graph store retains node 1 inserted before the failure
point, so a partial graph IS retained; moreover a file with a NODES section
but no EDGES header loads successfully (return 0), so a missing section
header is not an error. -/
theorem C8_counterexample :
    (load_map_data path_planning_init (some dup_node_file)).1 = -1 ∧
    (load_map_data path_planning_init (some dup_node_file)).2.nodes =
      [⟨1, 101, 0, 0⟩] ∧
    (load_map_data path_planning_init (some headerless_edges_file)).1 = 0 := by
  decide

/-- C8 amended: load_map_data fails with the graph unchanged when the file is
unreadable, empty, or its first line is not the NODES header; when a node or
edge insert fails mid-file it fails but keeps everything inserted up to the
failure point: in every case the prior nodes and edges remain as a prefix of
the resulting graph (no rollback is performed). -/
theorem C8_load_failure_behavior :
    (∀ g : graph_t, load_map_data g none = (-1, g)) ∧
    (∀ g : graph_t, load_map_data g (some []) = (-1, g)) ∧
    (∀ (g : graph_t) (first : MapLine) (rest : List MapLine),
      first ≠ MapLine.nodes_header → load_map_data g (some (first :: rest)) = (-1, g)) ∧
    (∀ (g : graph_t) (file : Option (List MapLine)),
      ∃ tn te, (load_map_data g file).2.nodes = g.nodes ++ tn ∧
        (load_map_data g file).2.edges = g.edges ++ te) := by
  refine ⟨fun g => rfl, fun g => rfl, ?_, ?_⟩
  · intro g first rest h
    simp only [load_map_data]
    rw [if_neg h]
  · intro g file
    cases file with
    | none => exact ⟨[], [], by simp [load_map_data], by simp [load_map_data]⟩
    | some lines =>
        cases lines with
        | nil => exact ⟨[], [], by simp [load_map_data], by simp [load_map_data]⟩
        | cons first rest =>
            simp only [load_map_data]
            by_cases hh : first = MapLine.nodes_header
            · rw [if_pos hh]
              exact load_nodes_mono rest g
            · rw [if_neg hh]
              exact ⟨[], [], by simp, by simp⟩


/-- Witness for C8: a first line that is not the NODES header makes the load
fail with the graph unchanged. -/
theorem C8_witness :
    load_map_data path_planning_init (some [MapLine.other]) =
      (-1, path_planning_init) :=
  C8_load_failure_behavior.2.2.1 path_planning_init MapLine.other [] (by decide)

end PathPlanning

namespace PathPlanning

/-- C9: the direction translator returns the invalid-path value -1 exactly for
a missing path or one of fewer than two nodes; for any path of at least two
nodes it returns one of the four cardinal encodings 0/1/2/3 (East, North,
West, South), picking the axis of the larger absolute displacement component
between the first two nodes, with ties going to the vertical axis. -/
theorem C9_direction_translation :
    (get_direction_from_path none = -1) ∧
    (∀ p : path_t, p.nodes.length < 2 → get_direction_from_path (some p) = -1) ∧
    (∀ p : path_t, 2 ≤ p.nodes.length →
      get_direction_from_path (some p) ≠ -1 ∧
      (get_direction_from_path (some p) = 0 ∨ get_direction_from_path (some p) = 1 ∨
        get_direction_from_path (some p) = 2 ∨ get_direction_from_path (some p) = 3) ∧
      (|(p.nodes.getD 1 ⟨0, 0, 0, 0⟩).y - (p.nodes.getD 0 ⟨0, 0, 0, 0⟩).y| <
          |(p.nodes.getD 1 ⟨0, 0, 0, 0⟩).x - (p.nodes.getD 0 ⟨0, 0, 0, 0⟩).x| →
        get_direction_from_path (some p) =
          if 0 < (p.nodes.getD 1 ⟨0, 0, 0, 0⟩).x - (p.nodes.getD 0 ⟨0, 0, 0, 0⟩).x
          then 0 else 2) ∧
      (|(p.nodes.getD 1 ⟨0, 0, 0, 0⟩).x - (p.nodes.getD 0 ⟨0, 0, 0, 0⟩).x| ≤
          |(p.nodes.getD 1 ⟨0, 0, 0, 0⟩).y - (p.nodes.getD 0 ⟨0, 0, 0, 0⟩).y| →
        get_direction_from_path (some p) =
          if 0 < (p.nodes.getD 1 ⟨0, 0, 0, 0⟩).y - (p.nodes.getD 0 ⟨0, 0, 0, 0⟩).y
          then 3 else 1)) := by
  refine ⟨rfl, ?_, ?_⟩
  · intro p h
    simp only [get_direction_from_path]
    rw [if_pos h]
  · intro p h
    have hnot : ¬p.nodes.length < 2 := by omega
    simp only [get_direction_from_path]
    rw [if_neg hnot]
    refine ⟨?_, ?_, ?_, ?_⟩
    · split_ifs <;> decide
    · split_ifs <;> simp
    · intro habs
      rw [if_pos habs]
    · intro habs
      rw [if_neg (not_lt.mpr habs)]

/-- Witness for C9 on a concrete 2-node eastbound path: not invalid, one of
the four directions, and East by the dominant horizontal displacement. -/
theorem C9_witness :
    2 ≤ east_path.nodes.length ∧
    get_direction_from_path (some east_path) ≠ -1 ∧
    (get_direction_from_path (some east_path) = 0 ∨
      get_direction_from_path (some east_path) = 1 ∨
      get_direction_from_path (some east_path) = 2 ∨
      get_direction_from_path (some east_path) = 3) ∧
    (|(east_path.nodes.getD 1 ⟨0, 0, 0, 0⟩).y - (east_path.nodes.getD 0 ⟨0, 0, 0, 0⟩).y| <
        |(east_path.nodes.getD 1 ⟨0, 0, 0, 0⟩).x -
          (east_path.nodes.getD 0 ⟨0, 0, 0, 0⟩).x| →
      get_direction_from_path (some east_path) =
        if 0 < (east_path.nodes.getD 1 ⟨0, 0, 0, 0⟩).x -
            (east_path.nodes.getD 0 ⟨0, 0, 0, 0⟩).x
        then 0 else 2) ∧
    (|(east_path.nodes.getD 1 ⟨0, 0, 0, 0⟩).x - (east_path.nodes.getD 0 ⟨0, 0, 0, 0⟩).x| ≤
        |(east_path.nodes.getD 1 ⟨0, 0, 0, 0⟩).y -
          (east_path.nodes.getD 0 ⟨0, 0, 0, 0⟩).y| →
      get_direction_from_path (some east_path) =
        if 0 < (east_path.nodes.getD 1 ⟨0, 0, 0, 0⟩).y -
            (east_path.nodes.getD 0 ⟨0, 0, 0, 0⟩).y
        then 3 else 1) :=
  ⟨by decide, (C9_direction_translation.2.2 east_path (by decide)).1,
   (C9_direction_translation.2.2 east_path (by decide)).2.1,
   (C9_direction_translation.2.2 east_path (by decide)).2.2.1,
   (C9_direction_translation.2.2 east_path (by decide)).2.2.2⟩

end PathPlanning
